import Mathlib

/-!
Shallow embedding of the minimuse cost-allocation and profit-computation
pipeline: freight allocation over purchase lines
(`app/purchases/routes.py:_recalc_allocations`), landed-cost selection for
sales costing (`app/sales/routes.py:_compute_unit_cost_basis`,
`_gross_to_net`, `_effective_po_date`, `_line_landed_cost`), the sales import
commit (`app/sales/routes.py:import_commit`), the daily metrics
recomputation (`app/admin/routes.py:_recompute_metrics_range`) and the
TTL cache (`app/utils/cache.py`).

Python `Decimal` arithmetic is modelled with exact rationals (`ℚ`),
dates with integers (`Int`, ordered as dates are), nullable columns with
`Option`.  Python truthiness tests (`x or d`) on numbers map `0` and
`None` to the default; on strings they map `""` and `None` to the
default.
-/

namespace Minimuse

/-- Python `s or d` for an optional string: `None` and `""` are falsy. -/
def pyStrOrOpt : Option String → String → String
  | none, d => d
  | some s, d => if s = "" then d else s

/-- Python `s or d` for a plain string: `""` is falsy. -/
def pyStrOr (s d : String) : String :=
  if s = "" then d else s

/-- Python `q or d` for a Decimal/number: `0` is falsy. -/
def pyQOr (q d : ℚ) : ℚ :=
  if q = 0 then d else q

/-- Python `str.strip()`: drop leading and trailing whitespace
(structurally, so that it evaluates on concrete strings). -/
def pyStrip (s : String) : String :=
  ⟨(((s.data.dropWhile Char.isWhitespace).reverse.dropWhile Char.isWhitespace).reverse)⟩

/-- Python `s[:n]`. -/
def pyTake (n : Nat) (s : String) : String :=
  ⟨s.data.take n⟩

/-- Python `str.lower()`. -/
def pyLower (s : String) : String :=
  ⟨s.data.map Char.toLower⟩

/-- Python `str.upper()`. -/
def pyUpper (s : String) : String :=
  ⟨s.data.map Char.toUpper⟩

/-!  ## Purchase data model

`purchase_orders` / `purchase_lines` columns used by the pipeline
(`app/models.py`).  `qty` is modelled as `Option Int` because the code
always guards it with `or 0`; `unit_cost_net` is a non-nullable column.
-/

/-- A `purchase_orders` row (`app/models.py:PurchaseOrder`); dates are
`Option Int`, `created_at` is its `.date()`. -/
structure PO where
  id : Int
  arrival_date : Option Int
  order_date : Option Int
  created_at : Option Int
  freight_total : Option ℚ
  allocation_method : Option String
deriving Repr, DecidableEq

/-- A `purchase_lines` row (`app/models.py:PurchaseLine`). -/
structure PLine where
  sku : String
  qty : Option Int
  unit_cost_net : ℚ
  packaging_per_unit : Option ℚ
  landed_unit_cost : Option ℚ
deriving Repr, DecidableEq, Inhabited

/-- Python `Decimal(ln.qty or 0)` / `int(pl.qty or 0)`. -/
def qtyOr0 (ln : PLine) : Int :=
  ln.qty.getD 0

/-- Python `Decimal(str(ln.packaging_per_unit)) if ... is not None else 0`. -/
def pkgOr0 (ln : PLine) : ℚ :=
  ln.packaging_per_unit.getD 0

/-- The values `_recalc_allocations` writes back onto one purchase line. -/
structure PAlloc where
  freight_allocated_total : ℚ
  freight_allocated_per_unit : ℚ
  landed_unit_cost : ℚ
deriving Repr, DecidableEq, Inhabited

/-- Normalisation `po.allocation_method or "value"` (`None` and `""` are falsy). -/
def normMethod : Option String → String
  | none => "value"
  | some s => if s = "" then "value" else s

/-- Body of the per-line loop in `_recalc_allocations` once the freight is
positive: `alloc = freight*base/base_total if base_total > 0 else 0`,
`qty = Decimal(ln.qty or 0) or Decimal("1")`,
`per_unit = alloc/qty if qty > 0 else 0`,
`landed = unit_cost_net + per_unit + pkg`. -/
def allocLine (ft base_total base : ℚ) (ln : PLine) : PAlloc :=
  let alloc : ℚ := if 0 < base_total then ft * base / base_total else 0
  let q : ℚ := if ((qtyOr0 ln : Int) : ℚ) = 0 then 1 else ((qtyOr0 ln : Int) : ℚ)
  let pu : ℚ := if 0 < q then alloc / q else 0
  ⟨alloc, pu, ln.unit_cost_net + pu + pkgOr0 ln⟩

/-- Function `_recalc_allocations` (`app/purchases/routes.py:114`): freight
allocation and landed cost per line, returned in line order. -/
def recalcAllocations (freight_total : Option ℚ) (method : Option String)
    (lines : List PLine) : List PAlloc :=
  let ft : ℚ := freight_total.getD 0
  if ft ≤ 0 then
    lines.map (fun ln => ⟨0, 0, ln.unit_cost_net + pkgOr0 ln⟩)
  else if normMethod method = "qty" then
    let base_total : ℚ := (lines.map (fun ln => ((qtyOr0 ln : Int) : ℚ))).sum
    lines.map (fun ln => allocLine ft base_total ((qtyOr0 ln : Int) : ℚ) ln)
  else
    let base_total : ℚ := (lines.map (fun ln => ln.unit_cost_net * ((qtyOr0 ln : Int) : ℚ))).sum
    lines.map (fun ln => allocLine ft base_total (ln.unit_cost_net * ((qtyOr0 ln : Int) : ℚ)) ln)

/-- A line's allocation base under a given (normalised) method: its qty
under `"qty"`, `unit_cost_net * qty` otherwise (the default `"value"`). -/
def allocBase (m : String) (ln : PLine) : ℚ :=
  if m = "qty" then ((qtyOr0 ln : Int) : ℚ) else ln.unit_cost_net * ((qtyOr0 ln : Int) : ℚ)

/-- Total allocation base of a purchase order's lines. -/
def allocBaseTotal (m : String) (lines : List PLine) : ℚ :=
  (lines.map (allocBase m)).sum

/-- Concrete purchase lines exhibiting a line with negative qty. -/
def cexLines : List PLine :=
  [⟨"A", some 3, 0, none, none⟩, ⟨"B", some (-1), 0, none, none⟩]

/-- A concrete joined purchase table: SKU `"S"` bought twice, arrival
days 10 and 20, landed costs 6 and 9. -/
def wTable : List (PLine × PO) :=
  [(⟨"S", some 2, 4, none, some 6⟩, ⟨1, some 10, none, none, none, none⟩),
   (⟨"S", some 1, 3, none, some 9⟩, ⟨2, some 20, none, none, none, none⟩)]

/-!  ## Sales costing (`app/sales/routes.py`) -/

/-- Function `_effective_po_date`: `arrival_date`, else `order_date`, else
`created_at.date()`, else `None`. -/
def effectivePODate (po : PO) : Option Int :=
  match po.arrival_date with
  | some d => some d
  | none =>
    match po.order_date with
    | some d => some d
    | none => po.created_at

/-- Function `_line_landed_cost`: prefer `landed_unit_cost`; if missing, fall back
to `unit_cost_net + packaging_per_unit`. -/
def lineLandedCost (pl : PLine) : ℚ :=
  match pl.landed_unit_cost with
  | some c => c
  | none => pl.unit_cost_net + pl.packaging_per_unit.getD 0

/-- One entry `(eff, po.id, qty, cost)` of the `enriched` list built by
`_compute_unit_cost_basis`. -/
structure CostRow where
  eff : Option Int
  po_id : Int
  qty : Int
  cost : ℚ
deriving Repr, DecidableEq, Inhabited

/-- The enriched entry built from one joined row. -/
def toCostRow (r : PLine × PO) : CostRow :=
  ⟨effectivePODate r.2, r.2.id, qtyOr0 r.1, lineLandedCost r.1⟩

/-- The strict order of the sort key `(x[0] is None, x[0])` used with
`reverse=True`: `x` below `y` iff `x` is a date and `y` is `None`, or
both are dates and `x`'s is earlier. -/
def effKeyLt : Option Int → Option Int → Bool
  | some _, none => true
  | some a, some b => decide (a < b)
  | none, _ => false

/-- Head of the stable descending sort of `c :: rest` under the key
order: the earliest-listed row that no later row strictly exceeds. -/
def pickLatest (c : CostRow) (rest : List CostRow) : CostRow :=
  rest.foldl (fun best x => if effKeyLt best.eff x.eff then x else best) c

/-- The `before` filter `r[0] is not None and sale_date is not None and
r[0] <= sale_date`. -/
def beforeSale (saleDate : Option Int) (eff : Option Int) : Bool :=
  match eff, saleDate with
  | some e, some sd => decide (e ≤ sd)
  | _, _ => false

/-- The `enriched` list of `_compute_unit_cost_basis`: rows of the SKU,
dropping lines with `qty <= 0`. -/
def enrichedRows (table : List (PLine × PO)) (s : String) : List CostRow :=
  (table.filter (fun r => r.1.sku = s)).filterMap (fun r =>
    if qtyOr0 r.1 ≤ 0 then none else some (toCostRow r))

/-- The `candidates` list: enriched rows dated on or before the sale
date, or all enriched rows when there are none such. -/
def codeCandidates (table : List (PLine × PO)) (s : String) (saleDate : Option Int) :
    List CostRow :=
  let enriched := enrichedRows table s
  let before := enriched.filter (fun r => beforeSale saleDate r.eff)
  if before = [] then enriched else before

/-- Function `_compute_unit_cost_basis` (`app/sales/routes.py:157`) over the
joined `purchase_lines × purchase_orders` table. -/
def computeUnitCostBasis (table : List (PLine × PO)) (sku : String)
    (saleDate : Option Int) (method : String) : ℚ × Option Int :=
  let s := pyStrip sku
  if s = "" then (0, none)
  else if table.filter (fun r => r.1.sku = s) = [] then (0, none)
  else if enrichedRows table s = [] then (0, none)
  else
    let candidates := codeCandidates table s saleDate
    if pyStrOr method "weighted_avg" = "last" then
      match candidates with
      | [] => (0, none)   -- unreachable: `candidates` is nonempty here
      | c :: cs =>
        let r := pickLatest c cs
        (r.cost, if r.po_id = 0 then none else some r.po_id)
    else
      let total_qty : ℚ := (candidates.map (fun r => ((r.qty : Int) : ℚ))).sum
      if total_qty ≤ 0 then (0, none)
      else (((candidates.map (fun r => ((r.qty : Int) : ℚ) * r.cost)).sum) / total_qty, none)

/-- Spec side: the purchase lines of a SKU with positive qty. -/
def skuPosLines (table : List (PLine × PO)) (s : String) : List (PLine × PO) :=
  table.filter (fun r => r.1.sku = s ∧ 0 < qtyOr0 r.1)

/-- Spec side: the costing candidates — the positive-qty lines of the
SKU dated on or before the sale date, or all of them when none is. -/
def claimCandidates (table : List (PLine × PO)) (s : String) (saleDate : Option Int) :
    List (PLine × PO) :=
  let pos := skuPosLines table s
  let before := pos.filter (fun r => beforeSale saleDate (effectivePODate r.2))
  if before = [] then pos else before

/-!  ## Sales import commit (`app/sales/routes.py:import_commit`)

Payload values are modelled after parsing: `_safe_int`/`_safe_decimal`
already applied (they default to 0), `_safe_date` already applied
(`Option Int`).  `today` stands for `datetime.utcnow().date()`.
-/

/-- Function `_gross_to_net` (`app/sales/routes.py:122`): `net = gross/(1+vat/100)`,
rate defaulting to 18.00 when `None`, gross passed through when the
factor is nonpositive. -/
def grossToNet (gross : ℚ) (vat_rate : Option ℚ) : ℚ :=
  let vr := vat_rate.getD 18
  let factor : ℚ := 1 + vr / 100
  if factor ≤ 0 then gross else gross / factor

/-- An `items` row (`app/models.py:Item`): `vat_rate` is non-nullable. -/
structure Item where
  id : Int
  sku : String
  description : String
  vat_rate : ℚ
deriving Repr, DecidableEq

/-- A parsed payload sales line. -/
structure PayloadLine where
  sku : String
  description : Option String
  qty : Int
  unit_price_gross : ℚ
  line_discount_gross : ℚ
deriving Repr, DecidableEq

/-- A parsed payload order. -/
structure PayloadOrder where
  order_number : String
  channel : Option String
  currency : Option String
  order_date : Option Int
  shipping_charged_gross : ℚ
  order_discount_gross : ℚ
  lines : List PayloadLine
deriving Repr, DecidableEq

/-- A `sales_orders` row as created by the import (the columns that the
commit writes and reads back). -/
structure SalesOrderRow where
  id : Int
  order_number : String
  order_date : Int
  channel : String
  currency : String
  shipping_charged_gross : Option ℚ
  order_discount_gross : Option ℚ
deriving Repr, DecidableEq

/-- A `sales_lines` row as created by the import. -/
structure SalesLineRow where
  sales_order_id : Int
  item_id : Int
  sku : String
  description : String
  qty : Int
  unit_price_gross : ℚ
  line_discount_gross : Option ℚ
  order_discount_alloc_gross : Option ℚ
  vat_rate : ℚ
  unit_price_net : ℚ
  revenue_net : ℚ
  cost_method : String
  unit_cost_basis : ℚ
  cost_total : ℚ
  profit : ℚ
  cost_source_po_id : Option Int
deriving Repr, DecidableEq

/-- The sales-side database state threaded through the commit;
`nextItemId`/`nextOrderId` model the primary-key sequences assigned at
`flush()`. -/
structure SalesDB where
  items : List Item
  orders : List SalesOrderRow
  lines : List SalesLineRow
  nextItemId : Int
  nextOrderId : Int
deriving Repr, DecidableEq

/-- The counters reported by the flash message. -/
structure CommitCounters where
  created_orders : Nat
  created_lines : Nat
  created_items : Nat
  skipped_existing : Nat
  skipped_missing_sku : Nat
deriving Repr, DecidableEq

structure CommitState where
  db : SalesDB
  counters : CommitCounters
deriving Repr, DecidableEq

/-- One entry of the `prepared` list. -/
structure Prepared where
  item : Item
  sku : String
  description : String
  qty : Int
  unit_price_gross : ℚ
  line_discount_gross : ℚ
  base_after_line_discount : ℚ
deriving Repr, DecidableEq

/-- The `prepared` entry built from one payload line and its item:
`base_after_line_discount = max(0, unit_price_gross*qty −
line_discount_gross)`. -/
def mkPrepared (item : Item) (ln : PayloadLine) : Prepared :=
  let gross_line := ln.unit_price_gross * (ln.qty : ℚ)
  let base0 := gross_line - ln.line_discount_gross
  let base := if base0 < 0 then 0 else base0
  ⟨item, pyStrip ln.sku, pyStrOrOpt ln.description item.description, ln.qty,
    ln.unit_price_gross, ln.line_discount_gross, base⟩

/-- State of the first (line-preparing) loop of `import_commit`. -/
structure PrepareResult where
  items : List Item
  nextItemId : Int
  prepared : List Prepared
  created_items : Nat
  skipped_missing_sku : Nat
deriving Repr, DecidableEq

/-- One iteration of the line-preparing loop: skip blank SKUs, create the
item when missing and `create_missing` is set, skip missing SKUs
otherwise, skip nonpositive quantities, else append a `prepared` entry. -/
def prepareStep (createMissing : Bool) (acc : PrepareResult) (ln : PayloadLine) :
    PrepareResult :=
  let sku := pyStrip ln.sku
  if sku = "" then acc
  else
    match acc.items.find? (fun it => it.sku = sku) with
    | none =>
      if createMissing then
        let item : Item :=
          ⟨acc.nextItemId, sku, pyTake 255 (pyStrOrOpt ln.description sku), 18⟩
        let acc1 : PrepareResult :=
          { acc with
            items := acc.items ++ [item]
            nextItemId := acc.nextItemId + 1
            created_items := acc.created_items + 1 }
        if ln.qty ≤ 0 then acc1
        else { acc1 with prepared := acc1.prepared ++ [mkPrepared item ln] }
      else { acc with skipped_missing_sku := acc.skipped_missing_sku + 1 }
    | some item =>
      if ln.qty ≤ 0 then acc
      else { acc with prepared := acc.prepared ++ [mkPrepared item ln] }

/-- The whole line-preparing loop. -/
def prepareLines (createMissing : Bool) (items : List Item) (nextItemId : Int)
    (lines : List PayloadLine) : PrepareResult :=
  lines.foldl (prepareStep createMissing) ⟨items, nextItemId, [], 0, 0⟩

/-- The sales line built in the second loop of `import_commit` for one
`prepared` entry, given the order id, effective order date, the order's
discount total and the total base over its prepared lines. -/
def mkSalesLine (ptable : List (PLine × PO)) (costMethod : String) (soId : Int)
    (orderDate : Int) (orderDiscountTotal totalBase : ℚ) (p : Prepared) : SalesLineRow :=
  let alloc : ℚ :=
    if 0 < orderDiscountTotal ∧ 0 < totalBase then
      orderDiscountTotal * (p.base_after_line_discount / totalBase)
    else 0
  let ga0 := p.base_after_line_discount - alloc
  let gross_after := if ga0 < 0 then 0 else ga0
  let vat_rate := pyQOr p.item.vat_rate 18
  let unit_price_net := grossToNet p.unit_price_gross (some vat_rate)
  let revenue_net := grossToNet gross_after (some vat_rate)
  let costBasis := computeUnitCostBasis ptable p.sku (some orderDate) costMethod
  let cost_total := costBasis.1 * (p.qty : ℚ)
  { sales_order_id := soId
    item_id := p.item.id
    sku := p.sku
    description := pyTake 255 p.description
    qty := p.qty
    unit_price_gross := p.unit_price_gross
    line_discount_gross :=
      if p.line_discount_gross = 0 then none else some p.line_discount_gross
    order_discount_alloc_gross := if alloc = 0 then none else some alloc
    vat_rate := vat_rate
    unit_price_net := unit_price_net
    revenue_net := revenue_net
    cost_method := costMethod
    unit_cost_basis := costBasis.1
    cost_total := cost_total
    profit := revenue_net - cost_total
    cost_source_po_id := costBasis.2 }

/-- Processing of one payload order by `import_commit`: skip blank order
numbers, skip orders whose `(channel, order_number)` already exists,
else create the order, prepare its lines, prorate the order discount
and create the sales lines. -/
def commitOrder (ptable : List (PLine × PO)) (createMissing : Bool) (costMethod : String)
    (today : Int) (st : CommitState) (o : PayloadOrder) : CommitState :=
  let order_number := pyStrip o.order_number
  if order_number = "" then st
  else
    let channel := pyLower (pyStrip (pyStrOrOpt o.channel "unknown"))
    let currency := pyUpper (pyStrip (pyStrOrOpt o.currency "EUR"))
    let order_date := o.order_date.getD today
    if st.db.orders.any (fun so =>
        so.channel = channel ∧ so.order_number = order_number) then
      { st with counters := { st.counters with
          skipped_existing := st.counters.skipped_existing + 1 } }
    else
      let so : SalesOrderRow :=
        ⟨st.db.nextOrderId, order_number, order_date, channel, currency,
          if o.shipping_charged_gross = 0 then none else some o.shipping_charged_gross,
          if o.order_discount_gross = 0 then none else some o.order_discount_gross⟩
      let pr := prepareLines createMissing st.db.items st.db.nextItemId o.lines
      let total_base := (pr.prepared.map (fun p => p.base_after_line_discount)).sum
      let newLines :=
        pr.prepared.map (mkSalesLine ptable costMethod so.id order_date
          o.order_discount_gross total_base)
      { db := { items := pr.items
                orders := st.db.orders ++ [so]
                lines := st.db.lines ++ newLines
                nextItemId := pr.nextItemId
                nextOrderId := st.db.nextOrderId + 1 }
        counters := { created_orders := st.counters.created_orders + 1
                      created_lines := st.counters.created_lines + pr.prepared.length
                      created_items := st.counters.created_items + pr.created_items
                      skipped_existing := st.counters.skipped_existing
                      skipped_missing_sku :=
                        st.counters.skipped_missing_sku + pr.skipped_missing_sku } }

/-- Function `import_commit` over a batch payload: fold `commitOrder` over the
orders with fresh counters; the cost method is
`(form value or "weighted_avg").strip()`. -/
def importCommit (ptable : List (PLine × PO)) (createMissing : Bool)
    (costMethodRaw : Option String) (today : Int) (db0 : SalesDB)
    (orders : List PayloadOrder) : CommitState :=
  let costMethod := pyStrip (pyStrOrOpt costMethodRaw "weighted_avg")
  orders.foldl (commitOrder ptable createMissing costMethod today) ⟨db0, ⟨0, 0, 0, 0, 0⟩⟩

/-- The normalized `(channel, order_number)` match used by the duplicate
check. -/
def orderMatch (o : PayloadOrder) (so : SalesOrderRow) : Bool :=
  so.channel = pyLower (pyStrip (pyStrOrOpt o.channel "unknown")) ∧
  so.order_number = pyStrip o.order_number

/-!  ## Daily metrics recompute (`app/admin/routes.py:_recompute_metrics_range`)

The SQL joins `sales_lines` to `sales_orders` on the primary key
`sales_orders.id`; a line's order date is looked up with `find?`
(primary keys are unique).  `GROUP BY` over the joined rows is modelled
as one row per distinct date (resp. `(date, sku)` pair) occurring among
the lines whose order date is non-null and in range.
-/

/-- A `sales_orders` row as the aggregation reads it. -/
structure SOrder where
  id : Int
  order_date : Option Int
deriving Repr, DecidableEq

/-- A `sales_lines` row as the aggregation reads it. -/
structure SLine where
  sales_order_id : Int
  sku : String
  qty : Int
  revenue_net : ℚ
  cost_total : ℚ
  profit : ℚ
  line_discount_gross : Option ℚ
  order_discount_alloc_gross : Option ℚ
  vat_rate : ℚ
deriving Repr, DecidableEq

/-- A `daily_metrics` row. -/
structure DailyMetricRow where
  metric_date : Int
  orders_count : Nat
  units : Int
  revenue_net : ℚ
  cogs : ℚ
  profit : ℚ
  discount_gross : ℚ
  discount_net : ℚ
deriving Repr, DecidableEq

/-- A `sku_metrics_daily` row. -/
structure SkuMetricRow where
  metric_date : Int
  sku : String
  units : Int
  revenue_net : ℚ
  profit : ℚ
  discount_gross : ℚ
  discount_net : ℚ
deriving Repr, DecidableEq

/-- The two aggregate tables. -/
structure MetricsDB where
  daily : List DailyMetricRow
  skuDaily : List SkuMetricRow
deriving Repr, DecidableEq

/-- The order date a line joins to (`None` when the order is missing or
has no date; such lines are excluded by `WHERE so.order_date IS NOT
NULL`). -/
def lineDate (orders : List SOrder) (l : SLine) : Option Int :=
  (orders.find? (fun so => so.id = l.sales_order_id)).bind (fun so => so.order_date)

/-- Sum `COALESCE(line_discount_gross,0) + COALESCE(order_discount_alloc_gross,0)`. -/
def lineDiscountGross (l : SLine) : ℚ :=
  l.line_discount_gross.getD 0 + l.order_discount_alloc_gross.getD 0

/-- The gross discount backed out to net: divided by `1 + vat_rate/100`. -/
def lineDiscountNet (l : SLine) : ℚ :=
  lineDiscountGross l / (1 + l.vat_rate / 100)

/-- The sales lines grouped under one order date. -/
def linesOn (orders : List SOrder) (lines : List SLine) (d : Int) : List SLine :=
  lines.filter (fun l => lineDate orders l = some d)

/-- The sales lines grouped under one `(date, sku)` pair. -/
def linesOnSku (orders : List SOrder) (lines : List SLine) (d : Int) (k : String) :
    List SLine :=
  lines.filter (fun l => lineDate orders l = some d ∧ l.sku = k)

/-- The `daily_metrics` row the insert produces for one date. -/
def mkDailyRow (orders : List SOrder) (lines : List SLine) (d : Int) : DailyMetricRow :=
  let ls := linesOn orders lines d
  { metric_date := d
    orders_count := ((ls.map (fun l => l.sales_order_id)).dedup).length
    units := (ls.map (fun l => l.qty)).sum
    revenue_net := (ls.map (fun l => l.revenue_net)).sum
    cogs := (ls.map (fun l => l.cost_total)).sum
    profit := (ls.map (fun l => l.profit)).sum
    discount_gross := (ls.map lineDiscountGross).sum
    discount_net := (ls.map lineDiscountNet).sum }

/-- The `sku_metrics_daily` row the insert produces for one pair. -/
def mkSkuRow (orders : List SOrder) (lines : List SLine) (p : Int × String) : SkuMetricRow :=
  let ls := linesOnSku orders lines p.1 p.2
  { metric_date := p.1
    sku := p.2
    units := (ls.map (fun l => l.qty)).sum
    revenue_net := (ls.map (fun l => l.revenue_net)).sum
    profit := (ls.map (fun l => l.profit)).sum
    discount_gross := (ls.map lineDiscountGross).sum
    discount_net := (ls.map lineDiscountNet).sum }

/-- The distinct in-range order dates having sales lines. -/
def datesInRange (orders : List SOrder) (lines : List SLine) (dFrom dTo : Int) :
    List Int :=
  ((lines.filterMap (fun l => lineDate orders l)).filter
    (fun d => dFrom ≤ d ∧ d ≤ dTo)).dedup

/-- The distinct in-range `(date, sku)` pairs having sales lines. -/
def skuPairsInRange (orders : List SOrder) (lines : List SLine) (dFrom dTo : Int) :
    List (Int × String) :=
  ((lines.filterMap (fun l => (lineDate orders l).map (fun d => (d, l.sku)))).filter
    (fun p => dFrom ≤ p.1 ∧ p.1 ≤ dTo)).dedup

/-- Function `_recompute_metrics_range` (`app/admin/routes.py:864`): delete both
aggregates over the range, then insert the grouped rows. -/
def recomputeMetricsRange (orders : List SOrder) (lines : List SLine)
    (dFrom dTo : Int) (db : MetricsDB) : MetricsDB :=
  let dailyKept := db.daily.filter
    (fun r => ¬ (dFrom ≤ r.metric_date ∧ r.metric_date ≤ dTo))
  let skuKept := db.skuDaily.filter
    (fun r => ¬ (dFrom ≤ r.metric_date ∧ r.metric_date ≤ dTo))
  { daily := dailyKept ++ (datesInRange orders lines dFrom dTo).map (mkDailyRow orders lines)
    skuDaily := skuKept ++
      (skuPairsInRange orders lines dFrom dTo).map (mkSkuRow orders lines) }

/-!  ## TTL cache (`app/utils/cache.py:TTLCache`)

`_store` is a Python dict `key -> (expires_at, value)`; dicts preserve
insertion order, so it is modelled as a list in insertion order with
unique keys: assignment to a present key updates it in place, assignment
to a fresh key appends, and `next(iter(store.keys()))` is the head.
-/

/-- One `_store` entry. -/
structure CacheEntry (α : Type) where
  key : String
  expires_at : Int
  val : α
deriving Repr, DecidableEq

/-- Method `TTLCache.get`: returns the value and the store (the entry is popped
when expired). -/
def cacheGet {α : Type} (now : Int) (k : String) (store : List (CacheEntry α)) :
    Option α × List (CacheEntry α) :=
  match store.find? (fun e => e.key = k) with
  | none => (none, store)
  | some e =>
    if e.expires_at < now then (none, store.eraseP (fun e => e.key = k))
    else (some e.val, store)

/-- Method `TTLCache.prune`: drop every expired entry. -/
def cachePrune {α : Type} (now : Int) (store : List (CacheEntry α)) :
    List (CacheEntry α) :=
  store.filter (fun e => ¬ e.expires_at < now)

/-- Python dict assignment `store[k] = (exp, v)`: update in place when the
key is present, else append. -/
def dictInsert {α : Type} (k : String) (exp : Int) (v : α)
    (store : List (CacheEntry α)) : List (CacheEntry α) :=
  if store.any (fun e => e.key = k) then
    store.map (fun e => if e.key = k then ⟨k, exp, v⟩ else e)
  else store ++ [⟨k, exp, v⟩]

/-- Method `TTLCache.set`: when the store is at capacity, prune expired entries
and, if still at capacity, pop one arbitrary (the first) key; then
insert the new entry with expiry `now + ttl`. -/
def cacheSet {α : Type} (ttl : Int) (maxItems : Nat) (now : Int) (k : String) (v : α)
    (store : List (CacheEntry α)) : List (CacheEntry α) :=
  let store1 :=
    if maxItems ≤ store.length then
      let pruned := cachePrune now store
      if maxItems ≤ pruned.length then pruned.drop 1 else pruned
    else store
  dictInsert k (now + ttl) v store1

/-- One cache operation, tagged with the wall-clock time it runs at. -/
inductive CacheOp (α : Type) where
  | get (now : Int) (k : String)
  | set (now : Int) (k : String) (v : α)
  | prune (now : Int)
deriving Repr

/-- Effect of one operation on the store. -/
def cacheStep {α : Type} (ttl : Int) (maxItems : Nat) (store : List (CacheEntry α)) :
    CacheOp α → List (CacheEntry α)
  | .get now k => (cacheGet now k store).2
  | .set now k v => cacheSet ttl maxItems now k v store
  | .prune now => cachePrune now store

/-- Run a sequence of operations against an initially empty cache. -/
def cacheRun {α : Type} (ttl : Int) (maxItems : Nat) (ops : List (CacheOp α)) :
    List (CacheEntry α) :=
  ops.foldl (cacheStep ttl maxItems) []

/-! ## Lemmas and claim theorems -/

theorem allocBase_qty_fun : allocBase "qty" = fun ln => ((qtyOr0 ln : Int) : ℚ) := by
  funext ln
  simp [allocBase]

theorem allocBase_ne_qty_fun {m : String} (h : ¬ m = "qty") :
    allocBase m = fun ln => ln.unit_cost_net * ((qtyOr0 ln : Int) : ℚ) := by
  funext ln
  simp [allocBase, h]

theorem allocLine_total (ft bt b : ℚ) (ln : PLine) (hbt : 0 < bt) :
    (allocLine ft bt b ln).freight_allocated_total = ft * b / bt := by
  simp [allocLine, hbt]

theorem allocLine_per_unit (ft bt b : ℚ) (ln : PLine)
    (hb : qtyOr0 ln = 0 → b = 0) :
    (allocLine ft bt b ln).freight_allocated_per_unit =
      if 0 < qtyOr0 ln then
        (allocLine ft bt b ln).freight_allocated_total / ((qtyOr0 ln : Int) : ℚ)
      else 0 := by
  rcases lt_trichotomy (qtyOr0 ln) 0 with hq | hq | hq
  · have h1 : ¬ ((qtyOr0 ln : Int) : ℚ) = 0 := by exact_mod_cast hq.ne
    have h2 : ¬ (0 : ℚ) < ((qtyOr0 ln : Int) : ℚ) := by exact_mod_cast not_lt.mpr hq.le
    have h3 : ¬ 0 < qtyOr0 ln := not_lt.mpr hq.le
    simp [allocLine, h1, h2, h3]
  · have h1 : ((qtyOr0 ln : Int) : ℚ) = 0 := by exact_mod_cast hq
    have h3 : ¬ 0 < qtyOr0 ln := by omega
    simp [allocLine, h1, h3, hb hq]
  · have h1 : ¬ ((qtyOr0 ln : Int) : ℚ) = 0 := by exact_mod_cast hq.ne'
    have h2 : (0 : ℚ) < ((qtyOr0 ln : Int) : ℚ) := by exact_mod_cast hq
    simp [allocLine, h1, h2, hq]

theorem allocLine_bt_not_pos (ft bt b : ℚ) (ln : PLine) (hbt : ¬ 0 < bt) :
    allocLine ft bt b ln = ⟨0, 0, ln.unit_cost_net + pkgOr0 ln⟩ := by
  simp [allocLine, hbt]

/-- For positive freight, the result of `_recalc_allocations` at index `i`
is the per-line loop body applied to the line's base and the total base. -/
theorem recalcAllocations_pos_getElem (ft : ℚ) (method : Option String) (lines : List PLine)
    (hft : 0 < ft) (i : Nat) (ln : PLine) (hln : lines[i]? = some ln) :
    (recalcAllocations (some ft) method lines)[i]? =
      some (allocLine ft (allocBaseTotal (normMethod method) lines)
        (allocBase (normMethod method) ln) ln) := by
  by_cases hm : normMethod method = "qty"
  · simp only [recalcAllocations, Option.getD_some, if_neg (not_le.mpr hft), if_pos hm,
      List.getElem?_map, hln, Option.map_some']
    rw [hm, allocBaseTotal, allocBase_qty_fun]
  · simp only [recalcAllocations, Option.getD_some, if_neg (not_le.mpr hft), if_neg hm,
      List.getElem?_map, hln, Option.map_some']
    rw [allocBaseTotal, allocBase_ne_qty_fun hm]

/-- C1 (amended: the per-unit division applies to lines with positive qty;
a line with nonpositive qty receives a per-unit allocation of 0): for a
purchase order with positive freight and positive total allocation base,
each line's freight allocation is freight times its base over the total
base, its per-unit allocation is that divided by its qty when the qty is
positive (0 otherwise), and its landed unit cost is `unit_cost_net`
plus the per-unit allocation plus `packaging_per_unit`. -/
theorem recalc_allocations_positive_freight_split
    (ft : ℚ) (method : Option String) (lines : List PLine)
    (hft : 0 < ft) (hbt : 0 < allocBaseTotal (normMethod method) lines)
    (i : Nat) (ln : PLine) (hln : lines[i]? = some ln) :
    ∃ out, (recalcAllocations (some ft) method lines)[i]? = some out ∧
      out.freight_allocated_total =
        ft * allocBase (normMethod method) ln / allocBaseTotal (normMethod method) lines ∧
      out.freight_allocated_per_unit =
        (if 0 < qtyOr0 ln then out.freight_allocated_total / ((qtyOr0 ln : Int) : ℚ) else 0) ∧
      out.landed_unit_cost = ln.unit_cost_net + out.freight_allocated_per_unit + pkgOr0 ln := by
  refine ⟨_, recalcAllocations_pos_getElem ft method lines hft i ln hln, ?_, ?_, rfl⟩
  · exact allocLine_total _ _ _ _ hbt
  · refine allocLine_per_unit _ _ _ _ ?_
    intro h0
    by_cases hm : normMethod method = "qty" <;> simp [allocBase, hm, h0]

/-- Witness for `recalc_allocations_positive_freight_split` at a concrete
single-line order: freight 10 over a line of qty 2 at unit cost 5. -/
theorem recalc_allocations_positive_freight_split_witness :
    ∃ out, (recalcAllocations (some 10) none [⟨"A", some 2, 5, none, none⟩])[0]? = some out ∧
      out.freight_allocated_total =
        10 * allocBase (normMethod none) ⟨"A", some 2, 5, none, none⟩ /
          allocBaseTotal (normMethod none) [⟨"A", some 2, 5, none, none⟩] ∧
      out.freight_allocated_per_unit =
        (if 0 < qtyOr0 ⟨"A", some 2, 5, none, none⟩ then
          out.freight_allocated_total / ((qtyOr0 ⟨"A", some 2, 5, none, none⟩ : Int) : ℚ)
        else 0) ∧
      out.landed_unit_cost =
        (⟨"A", some 2, 5, none, none⟩ : PLine).unit_cost_net +
          out.freight_allocated_per_unit + pkgOr0 ⟨"A", some 2, 5, none, none⟩ :=
  recalc_allocations_positive_freight_split 10 none _ (by norm_num)
    (by norm_num [allocBaseTotal, allocBase, normMethod, qtyOr0,
      (by decide : ¬ ("value" : String) = "qty")]) 0 _ rfl

/-- C1 counterexample to the claim as stated: with freight 1, method
`"qty"` and lines of qty 3 and qty −1, the total base is positive and the
second line's allocation is freight times base over total base, but its
stored per-unit allocation is 0, while the allocation divided by its qty
is not 0. -/
theorem recalc_allocations_per_unit_counterexample :
    (0 : ℚ) < 1 ∧
    0 < allocBaseTotal (normMethod (some "qty")) cexLines ∧
    (recalcAllocations (some 1) (some "qty") cexLines)[1]? =
      some ⟨1 * allocBase (normMethod (some "qty")) (⟨"B", some (-1), 0, none, none⟩ : PLine) /
              allocBaseTotal (normMethod (some "qty")) cexLines, 0, 0⟩ ∧
    (0 : ℚ) ≠
      (1 * allocBase (normMethod (some "qty")) (⟨"B", some (-1), 0, none, none⟩ : PLine) /
          allocBaseTotal (normMethod (some "qty")) cexLines) /
        ((qtyOr0 (⟨"B", some (-1), 0, none, none⟩ : PLine) : Int) : ℚ) := by
  refine ⟨by norm_num, ?_, ?_, ?_⟩ <;>
    norm_num [cexLines, recalcAllocations, allocLine, allocBaseTotal, allocBase,
      normMethod, qtyOr0, pkgOr0, (by decide : ¬ ("qty" : String) = "")]

/-- C8: `_recalc_allocations` is fully guarded: with missing or
nonpositive freight every line gets zero freight fields and landed cost
`unit_cost_net + packaging_per_unit`; with positive freight but zero
total base every line's allocation, per-unit allocation are 0 and the
landed cost is again `unit_cost_net + packaging_per_unit`. -/
theorem recalc_allocations_guarded (ftq : Option ℚ) (method : Option String) (lines : List PLine)
    (i : Nat) (ln : PLine) (hln : lines[i]? = some ln) :
    (ftq.getD 0 ≤ 0 →
      (recalcAllocations ftq method lines)[i]? =
        some ⟨0, 0, ln.unit_cost_net + pkgOr0 ln⟩) ∧
    (0 < ftq.getD 0 → allocBaseTotal (normMethod method) lines = 0 →
      (recalcAllocations ftq method lines)[i]? =
        some ⟨0, 0, ln.unit_cost_net + pkgOr0 ln⟩) := by
  constructor
  · intro hle
    simp only [recalcAllocations, if_pos hle, List.getElem?_map, hln, Option.map_some']
  · intro hpos hzero
    obtain ⟨ft, hft⟩ : ∃ ft, ftq = some ft := by
      cases ftq with
      | none => simp at hpos
      | some ft => exact ⟨ft, rfl⟩
    subst hft
    simp only [Option.getD_some] at hpos
    rw [recalcAllocations_pos_getElem ft method lines hpos i ln hln,
      allocLine_bt_not_pos _ _ _ _ (by rw [hzero]; exact lt_irrefl 0)]

/-- Witness for `recalc_allocations_guarded`: a line under an order with
no freight, and a zero-qty line under freight 5 (zero total base). -/
theorem recalc_allocations_guarded_witness :
    (recalcAllocations none none [⟨"A", some 2, 3, none, none⟩])[0]? =
      some ⟨0, 0, (⟨"A", some 2, 3, none, none⟩ : PLine).unit_cost_net +
        pkgOr0 ⟨"A", some 2, 3, none, none⟩⟩ ∧
    (recalcAllocations (some 5) none [⟨"A", some 0, 3, none, none⟩])[0]? =
      some ⟨0, 0, (⟨"A", some 0, 3, none, none⟩ : PLine).unit_cost_net +
        pkgOr0 ⟨"A", some 0, 3, none, none⟩⟩ :=
  ⟨(recalc_allocations_guarded none none _ 0 _ rfl).1 (by norm_num),
   (recalc_allocations_guarded (some 5) none _ 0 _ rfl).2 (by norm_num)
     (by norm_num [allocBaseTotal, allocBase, normMethod, qtyOr0,
       (by decide : ¬ ("value" : String) = "qty")])⟩

theorem enrichedRows_eq (table : List (PLine × PO)) (s : String) :
    enrichedRows table s = (skuPosLines table s).map toCostRow := by
  induction table with
  | nil => rfl
  | cons r rs ih =>
    simp only [enrichedRows, skuPosLines, List.filter_cons] at ih ⊢
    by_cases h1 : r.1.sku = s
    · by_cases h2 : 0 < qtyOr0 r.1
      · simp [h1, h2, not_le.mpr h2, ih]
      · simp [h1, h2, not_lt.mp h2, ih]
    · simp [h1, ih]

theorem codeCandidates_eq (table : List (PLine × PO)) (s : String) (saleDate : Option Int) :
    codeCandidates table s saleDate = (claimCandidates table s saleDate).map toCostRow := by
  simp only [codeCandidates, claimCandidates, enrichedRows_eq]
  rw [List.filter_map]
  have hc : ((fun r => beforeSale saleDate r.eff) ∘ toCostRow) =
      fun r : PLine × PO => beforeSale saleDate (effectivePODate r.2) := rfl
  rw [hc]
  by_cases hb :
      (skuPosLines table s).filter
        (fun r => beforeSale saleDate (effectivePODate r.2)) = [] <;>
    simp [hb]

theorem mem_skuPosLines {table : List (PLine × PO)} {s : String} {r : PLine × PO}
    (h : r ∈ skuPosLines table s) : r ∈ table ∧ r.1.sku = s ∧ 0 < qtyOr0 r.1 := by
  have := List.mem_filter.mp h
  simpa using this

theorem claimCandidates_subset {table : List (PLine × PO)} {s : String}
    {saleDate : Option Int} {r : PLine × PO} (h : r ∈ claimCandidates table s saleDate) :
    r ∈ skuPosLines table s := by
  simp only [claimCandidates] at h
  split at h
  · exact h
  · exact (List.mem_filter.mp h).1

theorem claimCandidates_ne_nil {table : List (PLine × PO)} {s : String}
    {saleDate : Option Int} (hpos : skuPosLines table s ≠ []) :
    claimCandidates table s saleDate ≠ [] := by
  simp only [claimCandidates]
  split
  · exact hpos
  · assumption

/-- C2: with method `weighted_avg`, `_compute_unit_cost_basis` returns
the quantity-weighted average landed unit cost over the candidate lines
(the positive-qty purchase lines of the SKU whose effective order date is
on or before the sale date, or all positive-qty lines of the SKU when
none is) together with no source purchase order; and cost 0 with no
source purchase order when the SKU has no positive-qty purchase line. -/
theorem compute_unit_cost_basis_weighted_avg (table : List (PLine × PO)) (s : String)
    (saleDate : Option Int) (hs : pyStrip s = s) (hs0 : ¬ s = "") :
    (skuPosLines table s ≠ [] →
      computeUnitCostBasis table s saleDate "weighted_avg" =
        (((claimCandidates table s saleDate).map
            (fun r => ((qtyOr0 r.1 : Int) : ℚ) * lineLandedCost r.1)).sum /
          ((claimCandidates table s saleDate).map (fun r => ((qtyOr0 r.1 : Int) : ℚ))).sum,
         none)) ∧
    (skuPosLines table s = [] →
      computeUnitCostBasis table s saleDate "weighted_avg" = (0, none)) := by
  constructor
  · intro hpos
    obtain ⟨r0, hr0⟩ := List.exists_mem_of_ne_nil _ hpos
    have hr0' := mem_skuPosLines hr0
    have hrows : ¬ table.filter (fun r => r.1.sku = s) = [] := by
      intro hnil
      have := List.filter_eq_nil.mp hnil r0 hr0'.1
      simp [hr0'.2.1] at this
    have henr : ¬ enrichedRows table s = [] := by
      rw [enrichedRows_eq]
      simpa [List.map_eq_nil] using hpos
    have hq_pos : 0 < ((codeCandidates table s saleDate).map
        (fun r => ((r.qty : Int) : ℚ))).sum := by
      rw [codeCandidates_eq]
      apply List.sum_pos
      · intro x hx
        obtain ⟨cr, hcr, rfl⟩ := List.mem_map.mp hx
        obtain ⟨rr, hrr, rfl⟩ := List.mem_map.mp hcr
        have := (mem_skuPosLines (claimCandidates_subset hrr)).2.2
        exact_mod_cast this
      · simp only [ne_eq, List.map_eq_nil]
        exact claimCandidates_ne_nil hpos
    simp only [computeUnitCostBasis, hs, if_neg hs0, if_neg hrows, if_neg henr,
      if_neg (by decide : ¬ pyStrOr "weighted_avg" "weighted_avg" = "last"),
      if_neg (not_le.mpr hq_pos)]
    rw [codeCandidates_eq, List.map_map, List.map_map]
    rfl
  · intro hnil
    by_cases hrows : table.filter (fun r => r.1.sku = s) = []
    · simp [computeUnitCostBasis, hs, hs0, hrows]
    · have henr : enrichedRows table s = [] := by
        rw [enrichedRows_eq, hnil]
        rfl
      simp [computeUnitCostBasis, hs, hs0, hrows, henr]

theorem effKeyLt_irrefl (a : Option Int) : effKeyLt a a = false := by
  cases a <;> simp [effKeyLt]

theorem effKeyLt_trans {a b c : Option Int} (h1 : effKeyLt a b = true)
    (h2 : effKeyLt b c = true) : effKeyLt a c = true := by
  cases a <;> cases b <;> cases c <;> simp_all [effKeyLt] <;> omega

theorem effKeyLt_false_trans {a b c : Option Int} (h1 : effKeyLt a b = false)
    (h2 : effKeyLt b c = false) : effKeyLt a c = false := by
  cases a <;> cases b <;> cases c <;> simp_all [effKeyLt] <;> omega

theorem pickLatest_spec (rest : List CostRow) : ∀ c : CostRow,
    pickLatest c rest ∈ c :: rest ∧
      ∀ x ∈ c :: rest, effKeyLt (pickLatest c rest).eff x.eff = false := by
  induction rest with
  | nil =>
    intro c
    refine ⟨List.mem_singleton.mpr rfl, ?_⟩
    intro x hx
    rw [List.mem_singleton] at hx
    subst hx
    exact effKeyLt_irrefl _
  | cons y ys ih =>
    intro c
    have hstep : pickLatest c (y :: ys) =
        pickLatest (if effKeyLt c.eff y.eff then y else c) ys := rfl
    by_cases hcy : effKeyLt c.eff y.eff = true
    · rw [hstep, if_pos hcy]
      obtain ⟨hmem, hmax⟩ := ih y
      refine ⟨List.mem_cons_of_mem c hmem, ?_⟩
      intro x hx
      rcases List.mem_cons.mp hx with rfl | hx'
      · cases hpc : effKeyLt (pickLatest y ys).eff x.eff with
        | false => rfl
        | true =>
          have hy := hmax y (List.mem_cons_self y ys)
          rw [effKeyLt_trans hpc hcy] at hy
          exact hy
      · exact hmax x hx'
    · have hcy' : effKeyLt c.eff y.eff = false := by
        cases h : effKeyLt c.eff y.eff
        · rfl
        · exact absurd h hcy
      rw [hstep, if_neg (by simp [hcy'])]
      obtain ⟨hmem, hmax⟩ := ih c
      refine ⟨?_, ?_⟩
      · rcases List.mem_cons.mp hmem with h | h
        · rw [h]
          exact List.mem_cons_self _ _
        · exact List.mem_cons_of_mem c (List.mem_cons_of_mem y h)
      · intro x hx
        rcases List.mem_cons.mp hx with rfl | hx'
        · exact hmax x (List.mem_cons_self _ _)
        · rcases List.mem_cons.mp hx' with rfl | hx''
          · exact effKeyLt_false_trans (hmax c (List.mem_cons_self _ _)) hcy'
          · exact hmax x (List.mem_cons_of_mem c hx'')

/-- C5: with method `last`, `_compute_unit_cost_basis` returns the landed
unit cost and purchase-order id of a candidate line (positive-qty line of
the SKU dated on or before the sale date, or among all positive-qty lines
when none is) whose effective date no other candidate exceeds; purchase
orders are assumed to carry an effective date (`created_at` is a non-null
column) and positive ids (primary keys). -/
theorem compute_unit_cost_basis_last (table : List (PLine × PO)) (s : String)
    (saleDate : Option Int) (hs : pyStrip s = s) (hs0 : ¬ s = "")
    (hpos : skuPosLines table s ≠ [])
    (heff : ∀ r ∈ table, (effectivePODate r.2).isSome = true)
    (hid : ∀ r ∈ table, 0 < r.2.id) :
    ∃ r ∈ claimCandidates table s saleDate,
      computeUnitCostBasis table s saleDate "last" = (lineLandedCost r.1, some r.2.id) ∧
      ∀ r' ∈ claimCandidates table s saleDate,
        (effectivePODate r'.2).getD 0 ≤ (effectivePODate r.2).getD 0 := by
  obtain ⟨r0, hr0⟩ := List.exists_mem_of_ne_nil _ hpos
  have hr0' := mem_skuPosLines hr0
  have hrows : ¬ table.filter (fun r => r.1.sku = s) = [] := by
    intro hnil
    have := List.filter_eq_nil.mp hnil r0 hr0'.1
    simp [hr0'.2.1] at this
  have henr : ¬ enrichedRows table s = [] := by
    rw [enrichedRows_eq]
    simpa [List.map_eq_nil] using hpos
  obtain ⟨c, cs, hcc⟩ :=
    List.exists_cons_of_ne_nil (l := codeCandidates table s saleDate)
      (by rw [codeCandidates_eq]; simpa [List.map_eq_nil] using claimCandidates_ne_nil hpos)
  obtain ⟨hmem, hmax⟩ := pickLatest_spec cs c
  rw [← hcc] at hmem hmax
  rw [codeCandidates_eq] at hmem
  obtain ⟨rr, hrr, hrr'⟩ := List.mem_map.mp hmem
  have hrr_table : rr ∈ table := (mem_skuPosLines (claimCandidates_subset hrr)).1
  refine ⟨rr, hrr, ?_, ?_⟩
  · simp only [computeUnitCostBasis, hs, if_neg hs0, if_neg hrows, if_neg henr,
      if_pos (by decide : pyStrOr "last" "weighted_avg" = "last"), hcc]
    rw [← hrr']
    have hidrr : ¬ (toCostRow rr).po_id = 0 := by
      have := hid rr hrr_table
      simp only [toCostRow]
      omega
    rw [if_neg hidrr]
    rfl
  · intro r' hr'
    have hr'c : toCostRow r' ∈ codeCandidates table s saleDate := by
      rw [codeCandidates_eq]
      exact List.mem_map_of_mem toCostRow hr'
    have hkey := hmax (toCostRow r') hr'c
    rw [← hrr'] at hkey
    obtain ⟨d, hd⟩ := Option.isSome_iff_exists.mp (heff rr hrr_table)
    obtain ⟨d', hd'⟩ :=
      Option.isSome_iff_exists.mp
        (heff r' (mem_skuPosLines (claimCandidates_subset hr')).1)
    simp only [toCostRow, hd, hd', effKeyLt, decide_eq_false_iff_not, not_lt] at hkey
    simp [hd, hd', hkey]

/-- Witness for `compute_unit_cost_basis_weighted_avg` on `wTable` with
sale day 15. -/
theorem compute_unit_cost_basis_weighted_avg_witness :
    computeUnitCostBasis wTable "S" (some 15) "weighted_avg" =
      (((claimCandidates wTable "S" (some 15)).map
          (fun r => ((qtyOr0 r.1 : Int) : ℚ) * lineLandedCost r.1)).sum /
        ((claimCandidates wTable "S" (some 15)).map (fun r => ((qtyOr0 r.1 : Int) : ℚ))).sum,
       none) :=
  (compute_unit_cost_basis_weighted_avg wTable "S" (some 15) (by decide) (by decide)).1
    (by decide)

theorem dictInsert_length_le {α : Type} (k : String) (exp : Int) (v : α)
    (store : List (CacheEntry α)) :
    (dictInsert k exp v store).length ≤ store.length + 1 := by
  simp only [dictInsert]
  split <;> simp

theorem cacheSet_length_le {α : Type} (ttl : Int) (maxItems : Nat) (hmax : 1 ≤ maxItems)
    (now : Int) (k : String) (v : α) (store : List (CacheEntry α))
    (h : store.length ≤ maxItems) :
    (cacheSet ttl maxItems now k v store).length ≤ maxItems := by
  have hp : (cachePrune now store).length ≤ store.length :=
    List.length_filter_le _ _
  simp only [cacheSet]
  refine le_trans (dictInsert_length_le _ _ _ _) ?_
  split
  · split
    · simp only [List.length_drop]
      omega
    · omega
  · omega

theorem cacheGet_snd_length_le {α : Type} (now : Int) (k : String)
    (store : List (CacheEntry α)) :
    ((cacheGet now k store).2).length ≤ store.length := by
  unfold cacheGet
  cases store.find? (fun e => e.key = k) with
  | none => simp
  | some e =>
    by_cases hexp : e.expires_at < now <;>
      simp [hexp, List.length_eraseP_le]

theorem cacheStep_length_le {α : Type} (ttl : Int) (maxItems : Nat) (hmax : 1 ≤ maxItems)
    (store : List (CacheEntry α)) (h : store.length ≤ maxItems) (op : CacheOp α) :
    (cacheStep ttl maxItems store op).length ≤ maxItems := by
  cases op with
  | get now k => exact le_trans (cacheGet_snd_length_le now k store) h
  | set now k v => exact cacheSet_length_le ttl maxItems hmax now k v store h
  | prune now => exact le_trans (List.length_filter_le _ _) h

/-- C7: with `max_items` at least 1, `set` on a full store prunes expired
entries and, if still full, pops the first key before inserting, and
consequently after any sequence of `get`, `set` and `prune` operations
from an empty cache the store never holds more than `max_items`
entries. -/
theorem cache_never_exceeds_max {α : Type} (ttl : Int) (maxItems : Nat)
    (hmax : 1 ≤ maxItems) (ops : List (CacheOp α)) :
    (cacheRun ttl maxItems ops).length ≤ maxItems := by
  have key : ∀ (l : List (CacheOp α)) (store : List (CacheEntry α)),
      store.length ≤ maxItems →
      (l.foldl (cacheStep ttl maxItems) store).length ≤ maxItems := by
    intro l
    induction l with
    | nil =>
      intro store h
      simpa using h
    | cons op rest ih =>
      intro store h
      exact ih _ (cacheStep_length_le ttl maxItems hmax store h op)
  simpa [cacheRun] using key ops [] (by simp)

/-- Witness for `cache_never_exceeds_max`: three distinct unexpired keys
set into a cache of capacity 2, then a get and a prune. -/
theorem cache_never_exceeds_max_witness :
    (cacheRun (α := Nat) 30 2
      [.set 0 "a" 1, .set 1 "b" 2, .set 2 "c" 3, .get 3 "a", .prune 100]).length ≤ 2 :=
  cache_never_exceeds_max 30 2 (by decide)
    [.set 0 "a" 1, .set 1 "b" 2, .set 2 "c" 3, .get 3 "a", .prune 100]

/-- Witness for `compute_unit_cost_basis_last` on `wTable` with sale
day 15. -/
theorem compute_unit_cost_basis_last_witness :
    ∃ r ∈ claimCandidates wTable "S" (some 15),
      computeUnitCostBasis wTable "S" (some 15) "last" = (lineLandedCost r.1, some r.2.id) ∧
      ∀ r' ∈ claimCandidates wTable "S" (some 15),
        (effectivePODate r'.2).getD 0 ≤ (effectivePODate r.2).getD 0 :=
  compute_unit_cost_basis_last wTable "S" (some 15) (by decide) (by decide) (by decide)
    (by decide) (by decide)

theorem ite_none_getD_zero (a : ℚ) :
    (if a = 0 then (none : Option ℚ) else some a).getD 0 = a := by
  by_cases h : a = 0
  · simp [h]
  · simp [h]

theorem prepareStep_prepared (createMissing : Bool) (acc : PrepareResult) (ln : PayloadLine) :
    (prepareStep createMissing acc ln).prepared = acc.prepared ∨
    ∃ item, (prepareStep createMissing acc ln).prepared =
      acc.prepared ++ [mkPrepared item ln] := by
  simp only [prepareStep]
  split
  · exact Or.inl rfl
  · split
    · split
      · split
        · exact Or.inl rfl
        · exact Or.inr ⟨_, rfl⟩
      · exact Or.inl rfl
    · split
      · exact Or.inl rfl
      · exact Or.inr ⟨_, rfl⟩

theorem prepared_mem (createMissing : Bool) (lines : List PayloadLine) :
    ∀ (acc : PrepareResult) (p : Prepared),
      p ∈ (lines.foldl (prepareStep createMissing) acc).prepared →
      p ∈ acc.prepared ∨ ∃ ln ∈ lines, ∃ item, p = mkPrepared item ln := by
  induction lines with
  | nil =>
    intro acc p hp
    exact Or.inl hp
  | cons ln rest ih =>
    intro acc p hp
    rcases ih (prepareStep createMissing acc ln) p hp with h | ⟨ln', hln', item, rfl⟩
    · rcases prepareStep_prepared createMissing acc ln with he | ⟨item, he⟩
      · rw [he] at h
        exact Or.inl h
      · rw [he] at h
        rcases List.mem_append.mp h with h' | h'
        · exact Or.inl h'
        · rw [List.mem_singleton] at h'
          exact Or.inr ⟨ln, List.mem_cons_self _ _, item, h'⟩
    · exact Or.inr ⟨ln', List.mem_cons_of_mem _ hln', item, rfl⟩

theorem prepareLines_mem (createMissing : Bool) (items : List Item) (nextItemId : Int)
    (lines : List PayloadLine) (p : Prepared)
    (hp : p ∈ (prepareLines createMissing items nextItemId lines).prepared) :
    ∃ ln ∈ lines, ∃ item, p = mkPrepared item ln := by
  rcases prepared_mem createMissing lines ⟨items, nextItemId, [], 0, 0⟩ p hp with h | h
  · simp at h
  · exact h

/-- C3: for an order committed fresh (nonempty order number, no existing
`(channel, order_number)` row), the created sales lines are exactly the
prepared lines mapped through the second loop, every prepared line's
base is its gross amount minus the line discount clamped at 0, and every
created line's order-discount allocation (`NULL` read as 0) is the order
discount total times its base over the total base when the discount and
the total base are positive, else 0. -/
theorem import_commit_discount_proration (ptable : List (PLine × PO))
    (createMissing : Bool) (costMethod : String) (today : Int)
    (st : CommitState) (o : PayloadOrder) (pr : PrepareResult) (tb odt : ℚ)
    (hnum : ¬ pyStrip o.order_number = "")
    (hfresh : ¬ st.db.orders.any (fun so =>
      so.channel = pyLower (pyStrip (pyStrOrOpt o.channel "unknown")) ∧
      so.order_number = pyStrip o.order_number) = true)
    (hpr : pr = prepareLines createMissing st.db.items st.db.nextItemId o.lines)
    (htb : tb = (pr.prepared.map (fun p => p.base_after_line_discount)).sum)
    (hodt : odt = o.order_discount_gross) :
    (commitOrder ptable createMissing costMethod today st o).db.lines =
      st.db.lines ++ pr.prepared.map
        (mkSalesLine ptable costMethod st.db.nextOrderId (o.order_date.getD today) odt tb) ∧
    (∀ p ∈ pr.prepared, ∃ ln ∈ o.lines, ∃ item : Item,
      p = mkPrepared item ln ∧
      p.base_after_line_discount =
        (if ln.unit_price_gross * (ln.qty : ℚ) - ln.line_discount_gross < 0 then 0
         else ln.unit_price_gross * (ln.qty : ℚ) - ln.line_discount_gross)) ∧
    (∀ p ∈ pr.prepared,
      (mkSalesLine ptable costMethod st.db.nextOrderId (o.order_date.getD today) odt tb
          p).order_discount_alloc_gross.getD 0 =
        (if 0 < odt ∧ 0 < tb then odt * (p.base_after_line_discount / tb) else 0)) := by
  subst hpr htb hodt
  refine ⟨?_, ?_, ?_⟩
  · simp only [commitOrder, if_neg hnum, if_neg hfresh]
  · intro p hp
    obtain ⟨ln, hln, item, rfl⟩ :=
      prepareLines_mem createMissing st.db.items st.db.nextItemId o.lines p hp
    exact ⟨ln, hln, item, rfl, rfl⟩
  · intro p hp
    exact ite_none_getD_zero _

/-- Witness for `import_commit_discount_proration`: an empty database, a
fresh order with one line of qty 2 at gross price 50 and an order
discount of 10. -/
theorem import_commit_discount_proration_witness :
    (commitOrder [] true "weighted_avg" 100
        ⟨⟨[], [], [], 1, 1⟩, ⟨0, 0, 0, 0, 0⟩⟩
        ⟨"N1", none, none, some 5, 0, 10, [⟨"S", none, 2, 50, 0⟩]⟩).db.lines =
      (⟨⟨[], [], [], 1, 1⟩, ⟨0, 0, 0, 0, 0⟩⟩ : CommitState).db.lines ++
        (prepareLines true [] 1 [⟨"S", none, 2, 50, 0⟩]).prepared.map
          (mkSalesLine [] "weighted_avg" 1 5 10
            (((prepareLines true [] 1 [⟨"S", none, 2, 50, 0⟩]).prepared.map
              (fun p => p.base_after_line_discount)).sum)) ∧
    (∀ p ∈ (prepareLines true [] 1 [⟨"S", none, 2, 50, 0⟩]).prepared,
      ∃ ln ∈ [(⟨"S", none, 2, 50, 0⟩ : PayloadLine)], ∃ item : Item,
      p = mkPrepared item ln ∧
      p.base_after_line_discount =
        (if ln.unit_price_gross * (ln.qty : ℚ) - ln.line_discount_gross < 0 then 0
         else ln.unit_price_gross * (ln.qty : ℚ) - ln.line_discount_gross)) ∧
    (∀ p ∈ (prepareLines true [] 1 [⟨"S", none, 2, 50, 0⟩]).prepared,
      (mkSalesLine [] "weighted_avg" 1 5 10
          (((prepareLines true [] 1 [⟨"S", none, 2, 50, 0⟩]).prepared.map
            (fun p => p.base_after_line_discount)).sum)
          p).order_discount_alloc_gross.getD 0 =
        (if 0 < (10 : ℚ) ∧
            0 < ((prepareLines true [] 1 [⟨"S", none, 2, 50, 0⟩]).prepared.map
              (fun p => p.base_after_line_discount)).sum then
          10 * (p.base_after_line_discount /
            ((prepareLines true [] 1 [⟨"S", none, 2, 50, 0⟩]).prepared.map
              (fun p => p.base_after_line_discount)).sum)
        else 0)) :=
  import_commit_discount_proration [] true "weighted_avg" 100
    ⟨⟨[], [], [], 1, 1⟩, ⟨0, 0, 0, 0, 0⟩⟩
    ⟨"N1", none, none, some 5, 0, 10, [⟨"S", none, 2, 50, 0⟩]⟩
    _ _ _ (by decide) (by decide) rfl rfl rfl

theorem commitOrder_lines_shape (ptable : List (PLine × PO)) (createMissing : Bool)
    (costMethod : String) (today : Int) (st : CommitState) (o : PayloadOrder) :
    ∀ l ∈ (commitOrder ptable createMissing costMethod today st o).db.lines,
      l ∈ st.db.lines ∨
      ∃ (soId orderDate : Int) (odt tb : ℚ) (item : Item) (ln : PayloadLine),
        l = mkSalesLine ptable costMethod soId orderDate odt tb (mkPrepared item ln) := by
  intro l hl
  simp only [commitOrder] at hl
  split at hl
  · exact Or.inl hl
  · split at hl
    · exact Or.inl hl
    · rcases List.mem_append.mp hl with h | h
      · exact Or.inl h
      · obtain ⟨p, hp, rfl⟩ := List.mem_map.mp h
        obtain ⟨ln, _, item, rfl⟩ :=
          prepareLines_mem createMissing st.db.items st.db.nextItemId o.lines p hp
        exact Or.inr ⟨_, _, _, _, item, ln, rfl⟩

theorem importCommit_lines_shape (ptable : List (PLine × PO)) (createMissing : Bool)
    (costMethodRaw : Option String) (today : Int) (db0 : SalesDB)
    (orders : List PayloadOrder) :
    ∀ l ∈ (importCommit ptable createMissing costMethodRaw today db0 orders).db.lines,
      l ∈ db0.lines ∨
      ∃ (soId orderDate : Int) (odt tb : ℚ) (item : Item) (ln : PayloadLine),
        l = mkSalesLine ptable (pyStrip (pyStrOrOpt costMethodRaw "weighted_avg"))
          soId orderDate odt tb (mkPrepared item ln) := by
  have key : ∀ (l : List PayloadOrder) (st : CommitState) (x : SalesLineRow),
      x ∈ (l.foldl (commitOrder ptable createMissing
            (pyStrip (pyStrOrOpt costMethodRaw "weighted_avg")) today) st).db.lines →
      x ∈ st.db.lines ∨
      ∃ (soId orderDate : Int) (odt tb : ℚ) (item : Item) (ln : PayloadLine),
        x = mkSalesLine ptable (pyStrip (pyStrOrOpt costMethodRaw "weighted_avg"))
          soId orderDate odt tb (mkPrepared item ln) := by
    intro l
    induction l with
    | nil =>
      intro st x hx
      exact Or.inl hx
    | cons o rest ih =>
      intro st x hx
      rcases ih _ x hx with h | h
      · exact commitOrder_lines_shape ptable createMissing _ today st o x h
      · exact Or.inr h
  intro l hl
  exact key orders ⟨db0, ⟨0, 0, 0, 0, 0⟩⟩ l hl

theorem clamp_nonneg (x : ℚ) : (0 : ℚ) ≤ if x < 0 then 0 else x := by
  split
  · exact le_refl 0
  · next h => exact not_lt.mp h

theorem grossToNet_nonneg (g : ℚ) (v : Option ℚ) (hg : 0 ≤ g) :
    0 ≤ grossToNet g v := by
  simp only [grossToNet]
  split
  · exact hg
  · next h => exact div_nonneg hg (le_of_lt (not_le.mp h))

/-- C4: `_gross_to_net` divides the gross by `1 + v/100` whenever that
factor is positive, defaults the rate to 18.00 when it is `None`, and is
the conversion applied by the import commit to unit prices and to line
revenue after discounts (reconstructed from the stored discount fields,
`NULL` read as 0). -/
theorem gross_to_net_conversion (g v : ℚ) (hv : 0 < 1 + v / 100)
    (ptable : List (PLine × PO)) (createMissing : Bool) (costMethodRaw : Option String)
    (today : Int) (db0 : SalesDB) (orders : List PayloadOrder) :
    grossToNet g (some v) = g / (1 + v / 100) ∧
    grossToNet g none = g / (1 + (18 : ℚ) / 100) ∧
    ∀ l ∈ (importCommit ptable createMissing costMethodRaw today db0 orders).db.lines,
      l ∈ db0.lines ∨
        (l.unit_price_net = grossToNet l.unit_price_gross (some l.vat_rate) ∧
         l.revenue_net =
           grossToNet
             (let b0 := l.unit_price_gross * (l.qty : ℚ) - l.line_discount_gross.getD 0
              let b := if b0 < 0 then 0 else b0
              let g0 := b - l.order_discount_alloc_gross.getD 0
              if g0 < 0 then 0 else g0)
             (some l.vat_rate)) := by
  refine ⟨?_, ?_, ?_⟩
  · simp only [grossToNet, Option.getD_some]
    rw [if_neg (not_le.mpr hv)]
  · simp only [grossToNet, Option.getD_none]
    rw [if_neg (by norm_num : ¬ (1 : ℚ) + 18 / 100 ≤ 0)]
  · intro l hl
    rcases importCommit_lines_shape ptable createMissing costMethodRaw today db0 orders l hl
      with h | ⟨soId, orderDate, odt, tb, item, ln, rfl⟩
    · exact Or.inl h
    · right
      refine ⟨rfl, ?_⟩
      simp only [mkSalesLine, mkPrepared, ite_none_getD_zero]

/-- Witness for `gross_to_net_conversion`: gross 236 at VAT 18 over an
empty import. -/
theorem gross_to_net_conversion_witness :
    grossToNet 236 (some 18) = 236 / (1 + 18 / 100) ∧
    grossToNet 236 none = 236 / (1 + (18 : ℚ) / 100) ∧
    ∀ l ∈ (importCommit [] true none 100 ⟨[], [], [], 1, 1⟩ []).db.lines,
      l ∈ SalesDB.lines ⟨[], [], [], 1, 1⟩ ∨
        (l.unit_price_net = grossToNet l.unit_price_gross (some l.vat_rate) ∧
         l.revenue_net =
           grossToNet
             (let b0 := l.unit_price_gross * (l.qty : ℚ) - l.line_discount_gross.getD 0
              let b := if b0 < 0 then 0 else b0
              let g0 := b - l.order_discount_alloc_gross.getD 0
              if g0 < 0 then 0 else g0)
             (some l.vat_rate)) :=
  gross_to_net_conversion 236 18 (by norm_num) [] true none 100 ⟨[], [], [], 1, 1⟩ []

/-- C9: every sales line created by the import commit has nonnegative
`revenue_net` whenever its unit price and VAT rate are nonnegative: the
line base is clamped at 0 after the line discount and again after the
allocated order discount. -/
theorem import_commit_revenue_nonneg (ptable : List (PLine × PO)) (createMissing : Bool)
    (costMethodRaw : Option String) (today : Int) (db0 : SalesDB)
    (orders : List PayloadOrder) :
    ∀ l ∈ (importCommit ptable createMissing costMethodRaw today db0 orders).db.lines,
      l ∈ db0.lines ∨
        (0 ≤ l.unit_price_gross → 0 ≤ l.vat_rate → 0 ≤ l.revenue_net) := by
  intro l hl
  rcases importCommit_lines_shape ptable createMissing costMethodRaw today db0 orders l hl
    with h | ⟨soId, orderDate, odt, tb, item, ln, rfl⟩
  · exact Or.inl h
  · right
    intro _ _
    simp only [mkSalesLine]
    exact grossToNet_nonneg _ _ (clamp_nonneg _)

/-- Witness for `import_commit_revenue_nonneg`: the line created by a
one-order, one-line batch committed into an empty database has
nonnegative net revenue. -/
theorem import_commit_revenue_nonneg_witness :
    0 ≤ (mkSalesLine [] (pyStrip (pyStrOrOpt none "weighted_avg")) 1 5 10
      (((prepareLines true [] 1 [⟨"S", none, 2, 50, 0⟩]).prepared.map
        (fun p => p.base_after_line_discount)).sum)
      (mkPrepared ⟨1, pyStrip "S", pyTake 255 (pyStrOrOpt none (pyStrip "S")), 18⟩
        ⟨"S", none, 2, 50, 0⟩)).revenue_net := by
  rcases import_commit_revenue_nonneg [] true none 100 ⟨[], [], [], 1, 1⟩
      [⟨"N1", none, none, some 5, 0, 10, [⟨"S", none, 2, 50, 0⟩]⟩]
      (mkSalesLine [] (pyStrip (pyStrOrOpt none "weighted_avg")) 1 5 10
        (((prepareLines true [] 1 [⟨"S", none, 2, 50, 0⟩]).prepared.map
          (fun p => p.base_after_line_discount)).sum)
        (mkPrepared ⟨1, pyStrip "S", pyTake 255 (pyStrOrOpt none (pyStrip "S")), 18⟩
          ⟨"S", none, 2, 50, 0⟩))
      (List.Mem.head _) with h | h
  · exact absurd h (List.not_mem_nil _)
  · exact h (by norm_num [mkSalesLine, mkPrepared])
      (by norm_num [mkSalesLine, mkPrepared, pyQOr])

theorem commitOrder_orders_mono (ptable : List (PLine × PO)) (createMissing : Bool)
    (costMethod : String) (today : Int) (st : CommitState) (o : PayloadOrder) :
    ∀ so ∈ st.db.orders,
      so ∈ (commitOrder ptable createMissing costMethod today st o).db.orders := by
  intro so hso
  simp only [commitOrder]
  split
  · exact hso
  · split
    · exact hso
    · exact List.mem_append_left _ hso

theorem foldl_commitOrder_orders_mono (ptable : List (PLine × PO)) (createMissing : Bool)
    (costMethod : String) (today : Int) :
    ∀ (l : List PayloadOrder) (st : CommitState),
      ∀ so ∈ st.db.orders,
        so ∈ (l.foldl (commitOrder ptable createMissing costMethod today) st).db.orders := by
  intro l
  induction l with
  | nil =>
    intro st so h
    exact h
  | cons o rest ih =>
    intro st so h
    exact ih _ so (commitOrder_orders_mono ptable createMissing costMethod today st o so h)

theorem commitOrder_creates_match (ptable : List (PLine × PO)) (createMissing : Bool)
    (costMethod : String) (today : Int) (st : CommitState) (o : PayloadOrder)
    (hnum : ¬ pyStrip o.order_number = "") :
    ∃ so ∈ (commitOrder ptable createMissing costMethod today st o).db.orders,
      orderMatch o so = true := by
  by_cases hex : st.db.orders.any (fun so =>
      so.channel = pyLower (pyStrip (pyStrOrOpt o.channel "unknown")) ∧
      so.order_number = pyStrip o.order_number) = true
  · obtain ⟨so, hso, hm⟩ := List.any_eq_true.mp hex
    exact ⟨so, commitOrder_orders_mono ptable createMissing costMethod today st o so hso, hm⟩
  · refine ⟨⟨st.db.nextOrderId, pyStrip o.order_number, o.order_date.getD today,
      pyLower (pyStrip (pyStrOrOpt o.channel "unknown")),
      pyUpper (pyStrip (pyStrOrOpt o.currency "EUR")),
      if o.shipping_charged_gross = 0 then none else some o.shipping_charged_gross,
      if o.order_discount_gross = 0 then none else some o.order_discount_gross⟩, ?_, ?_⟩
    · simp only [commitOrder, if_neg hnum, if_neg hex]
      exact List.mem_append_right _ (List.mem_singleton.mpr rfl)
    · simp [orderMatch]

theorem foldl_commitOrder_matched (ptable : List (PLine × PO)) (createMissing : Bool)
    (costMethod : String) (today : Int) :
    ∀ (l : List PayloadOrder) (st : CommitState) (o : PayloadOrder),
      o ∈ l → ¬ pyStrip o.order_number = "" →
      ∃ so ∈ (l.foldl (commitOrder ptable createMissing costMethod today) st).db.orders,
        orderMatch o so = true := by
  intro l
  induction l with
  | nil =>
    intro st o h
    exact absurd h (List.not_mem_nil o)
  | cons o' rest ih =>
    intro st o ho hnum
    rcases List.mem_cons.mp ho with rfl | ho'
    · obtain ⟨so, hso, hm⟩ :=
        commitOrder_creates_match ptable createMissing costMethod today st o hnum
      exact ⟨so, foldl_commitOrder_orders_mono ptable createMissing costMethod today rest _
        so hso, hm⟩
    · exact ih _ o ho' hnum

theorem commitOrder_noop (ptable : List (PLine × PO)) (createMissing : Bool)
    (costMethod : String) (today : Int) (st : CommitState) (o : PayloadOrder)
    (h : pyStrip o.order_number = "" ∨
      st.db.orders.any (fun so =>
        so.channel = pyLower (pyStrip (pyStrOrOpt o.channel "unknown")) ∧
        so.order_number = pyStrip o.order_number) = true) :
    (commitOrder ptable createMissing costMethod today st o).db = st.db ∧
    (commitOrder ptable createMissing costMethod today st o).counters.created_orders =
      st.counters.created_orders ∧
    (commitOrder ptable createMissing costMethod today st o).counters.created_lines =
      st.counters.created_lines ∧
    (commitOrder ptable createMissing costMethod today st o).counters.created_items =
      st.counters.created_items := by
  rcases h with h | h
  · simp [commitOrder, if_pos h]
  · by_cases hnum : pyStrip o.order_number = ""
    · simp [commitOrder, if_pos hnum]
    · simp only [commitOrder, if_neg hnum, if_pos h]
      exact ⟨trivial, trivial, trivial, trivial⟩

theorem foldl_commitOrder_noop (ptable : List (PLine × PO)) (createMissing : Bool)
    (costMethod : String) (today : Int) :
    ∀ (l : List PayloadOrder) (st : CommitState),
      (∀ o ∈ l, pyStrip o.order_number = "" ∨
        st.db.orders.any (fun so =>
          so.channel = pyLower (pyStrip (pyStrOrOpt o.channel "unknown")) ∧
          so.order_number = pyStrip o.order_number) = true) →
      (l.foldl (commitOrder ptable createMissing costMethod today) st).db = st.db ∧
      (l.foldl (commitOrder ptable createMissing costMethod today) st).counters.created_orders =
        st.counters.created_orders ∧
      (l.foldl (commitOrder ptable createMissing costMethod today) st).counters.created_lines =
        st.counters.created_lines ∧
      (l.foldl (commitOrder ptable createMissing costMethod today) st).counters.created_items =
        st.counters.created_items := by
  intro l
  induction l with
  | nil =>
    intro st _
    exact ⟨rfl, rfl, rfl, rfl⟩
  | cons o rest ih =>
    intro st hall
    have h0 := commitOrder_noop ptable createMissing costMethod today st o
      (hall o (List.mem_cons_self _ _))
    have hall' : ∀ o' ∈ rest, pyStrip o'.order_number = "" ∨
        (commitOrder ptable createMissing costMethod today st o).db.orders.any (fun so =>
          so.channel = pyLower (pyStrip (pyStrOrOpt o'.channel "unknown")) ∧
          so.order_number = pyStrip o'.order_number) = true := by
      intro o' ho'
      rcases hall o' (List.mem_cons_of_mem _ ho') with h | h
      · exact Or.inl h
      · right
        rw [h0.1]
        exact h
    obtain ⟨hdb, h1, h2, h3⟩ := ih (commitOrder ptable createMissing costMethod today st o) hall'
    exact ⟨hdb.trans h0.1, h1.trans h0.2.1, h2.trans h0.2.2.1, h3.trans h0.2.2.2⟩

/-- C10: committing the same sales import batch a second time changes
nothing: every payload order with a nonempty order number left a
`(channel, order_number)` row behind, so the second run skips every
order, and its database equals the first run's with zero created
orders, lines and items. -/
theorem import_commit_idempotent (ptable : List (PLine × PO)) (createMissing : Bool)
    (costMethodRaw : Option String) (today : Int) (db0 : SalesDB)
    (orders : List PayloadOrder) :
    (importCommit ptable createMissing costMethodRaw today
        (importCommit ptable createMissing costMethodRaw today db0 orders).db orders).db =
      (importCommit ptable createMissing costMethodRaw today db0 orders).db ∧
    (importCommit ptable createMissing costMethodRaw today
        (importCommit ptable createMissing costMethodRaw today db0 orders).db
        orders).counters.created_orders = 0 ∧
    (importCommit ptable createMissing costMethodRaw today
        (importCommit ptable createMissing costMethodRaw today db0 orders).db
        orders).counters.created_lines = 0 ∧
    (importCommit ptable createMissing costMethodRaw today
        (importCommit ptable createMissing costMethodRaw today db0 orders).db
        orders).counters.created_items = 0 := by
  have hall : ∀ o ∈ orders, pyStrip o.order_number = "" ∨
      (importCommit ptable createMissing costMethodRaw today db0 orders).db.orders.any
        (fun so =>
          so.channel = pyLower (pyStrip (pyStrOrOpt o.channel "unknown")) ∧
          so.order_number = pyStrip o.order_number) = true := by
    intro o ho
    by_cases hnum : pyStrip o.order_number = ""
    · exact Or.inl hnum
    · right
      obtain ⟨so, hso, hm⟩ := foldl_commitOrder_matched ptable createMissing
        (pyStrip (pyStrOrOpt costMethodRaw "weighted_avg")) today orders
        ⟨db0, ⟨0, 0, 0, 0, 0⟩⟩ o ho hnum
      exact List.any_eq_true.mpr ⟨so, hso, hm⟩
  exact foldl_commitOrder_noop ptable createMissing
    (pyStrip (pyStrOrOpt costMethodRaw "weighted_avg")) today orders
    ⟨(importCommit ptable createMissing costMethodRaw today db0 orders).db,
      ⟨0, 0, 0, 0, 0⟩⟩ hall

theorem filter_map_of_nodup {α β : Type} (p : β → Bool) (f : α → β) (d : α)
    (hp : ∀ x, p (f x) = true ↔ x = d) :
    ∀ l : List α, l.Nodup → d ∈ l → (l.map f).filter p = [f d] := by
  intro l
  induction l with
  | nil =>
    intro _ hd
    simp at hd
  | cons a as ih =>
    intro hnd hd
    rw [List.nodup_cons] at hnd
    simp only [List.map_cons, List.filter_cons]
    by_cases ha : a = d
    · subst ha
      rw [if_pos ((hp a).mpr rfl)]
      have htail : (as.map f).filter p = [] := by
        rw [List.filter_eq_nil_iff]
        intro b hb
        obtain ⟨x, hx, rfl⟩ := List.mem_map.mp hb
        intro hpb
        have hxa := (hp x).mp hpb
        subst hxa
        exact hnd.1 hx
      rw [htail]
    · rw [if_neg (fun hpa => ha ((hp a).mp hpa))]
      rcases List.mem_cons.mp hd with h | h
      · exact absurd h.symm ha
      · exact ih hnd.2 h

theorem mem_datesInRange {orders : List SOrder} {lines : List SLine}
    {dFrom dTo d : Int} (hd1 : dFrom ≤ d) (hd2 : d ≤ dTo)
    (hne : linesOn orders lines d ≠ []) :
    d ∈ datesInRange orders lines dFrom dTo := by
  obtain ⟨l, hl⟩ := List.exists_mem_of_ne_nil _ hne
  have hl' := List.mem_filter.mp hl
  rw [datesInRange, List.mem_dedup, List.mem_filter]
  constructor
  · exact List.mem_filterMap.mpr ⟨l, hl'.1, by simpa using hl'.2⟩
  · simpa using ⟨hd1, hd2⟩

theorem mem_skuPairsInRange {orders : List SOrder} {lines : List SLine}
    {dFrom dTo d : Int} {k : String} (hd1 : dFrom ≤ d) (hd2 : d ≤ dTo)
    (hne : linesOnSku orders lines d k ≠ []) :
    (d, k) ∈ skuPairsInRange orders lines dFrom dTo := by
  obtain ⟨l, hl⟩ := List.exists_mem_of_ne_nil _ hne
  have hl' := List.mem_filter.mp hl
  have hdk : lineDate orders l = some d ∧ l.sku = k := by simpa using hl'.2
  rw [skuPairsInRange, List.mem_dedup, List.mem_filter]
  constructor
  · refine List.mem_filterMap.mpr ⟨l, hl'.1, ?_⟩
    rw [hdk.1, Option.map_some', hdk.2]
  · simpa using ⟨hd1, hd2⟩

theorem filter_idem {γ : Type} (p : γ → Bool) (l : List γ) :
    (l.filter p).filter p = l.filter p := by
  rw [List.filter_filter]
  congr 1
  funext a
  exact Bool.and_self (p a)

/-- C6: `_recompute_metrics_range` leaves both aggregates unchanged
outside the range; inside the range it leaves exactly one
`daily_metrics` row per order date having sales lines — with the
grouped sums of units, revenue, cogs, profit and gross/net discount —
and exactly one `sku_metrics_daily` row per `(date, sku)` pair, and no
row for in-range dates (or pairs) without lines. -/
theorem recompute_metrics_range_spec (orders : List SOrder) (lines : List SLine)
    (dFrom dTo : Int) (db : MetricsDB) :
    ((recomputeMetricsRange orders lines dFrom dTo db).daily.filter
        (fun r => ¬ (dFrom ≤ r.metric_date ∧ r.metric_date ≤ dTo)) =
      db.daily.filter (fun r => ¬ (dFrom ≤ r.metric_date ∧ r.metric_date ≤ dTo))) ∧
    ((recomputeMetricsRange orders lines dFrom dTo db).skuDaily.filter
        (fun r => ¬ (dFrom ≤ r.metric_date ∧ r.metric_date ≤ dTo)) =
      db.skuDaily.filter (fun r => ¬ (dFrom ≤ r.metric_date ∧ r.metric_date ≤ dTo))) ∧
    (∀ d : Int, dFrom ≤ d → d ≤ dTo → linesOn orders lines d ≠ [] →
      (recomputeMetricsRange orders lines dFrom dTo db).daily.filter
        (fun r => r.metric_date = d) = [mkDailyRow orders lines d]) ∧
    (∀ d : Int, dFrom ≤ d → d ≤ dTo → linesOn orders lines d = [] →
      (recomputeMetricsRange orders lines dFrom dTo db).daily.filter
        (fun r => r.metric_date = d) = []) ∧
    (∀ (d : Int) (k : String), dFrom ≤ d → d ≤ dTo → linesOnSku orders lines d k ≠ [] →
      (recomputeMetricsRange orders lines dFrom dTo db).skuDaily.filter
        (fun r => r.metric_date = d ∧ r.sku = k) = [mkSkuRow orders lines (d, k)]) ∧
    (∀ (d : Int) (k : String), dFrom ≤ d → d ≤ dTo → linesOnSku orders lines d k = [] →
      (recomputeMetricsRange orders lines dFrom dTo db).skuDaily.filter
        (fun r => r.metric_date = d ∧ r.sku = k) = []) := by
  have hdaily_mem : ∀ d ∈ datesInRange orders lines dFrom dTo,
      (dFrom ≤ d ∧ d ≤ dTo) ∧ linesOn orders lines d ≠ [] := by
    intro d hd
    rw [datesInRange, List.mem_dedup, List.mem_filter] at hd
    obtain ⟨hmem, hrange⟩ := hd
    obtain ⟨l, hl, hld⟩ := List.mem_filterMap.mp hmem
    refine ⟨by simpa using hrange, ?_⟩
    intro hnil
    have hmem' : l ∈ linesOn orders lines d :=
      List.mem_filter.mpr ⟨hl, by simpa using hld⟩
    rw [hnil] at hmem'
    exact List.not_mem_nil l hmem'
  have hsku_mem : ∀ p ∈ skuPairsInRange orders lines dFrom dTo,
      (dFrom ≤ p.1 ∧ p.1 ≤ dTo) ∧ linesOnSku orders lines p.1 p.2 ≠ [] := by
    intro p hp
    rw [skuPairsInRange, List.mem_dedup, List.mem_filter] at hp
    obtain ⟨hmem, hrange⟩ := hp
    obtain ⟨l, hl, hld⟩ := List.mem_filterMap.mp hmem
    obtain ⟨d0, hd0, hp0⟩ := Option.map_eq_some'.mp hld
    subst hp0
    refine ⟨by simpa using hrange, ?_⟩
    intro hnil
    have hmem' : l ∈ linesOnSku orders lines d0 l.sku :=
      List.mem_filter.mpr ⟨hl, by simp [hd0]⟩
    rw [hnil] at hmem'
    exact List.not_mem_nil l hmem'
  refine ⟨?_, ?_, ?_, ?_, ?_, ?_⟩
  · simp only [recomputeMetricsRange, List.filter_append]
    rw [filter_idem]
    have hnew : ((datesInRange orders lines dFrom dTo).map (mkDailyRow orders lines)).filter
        (fun r => ¬ (dFrom ≤ r.metric_date ∧ r.metric_date ≤ dTo)) = [] := by
      rw [List.filter_eq_nil_iff]
      intro r hr
      obtain ⟨d, hd, rfl⟩ := List.mem_map.mp hr
      obtain ⟨⟨h1, h2⟩, _⟩ := hdaily_mem d hd
      simp [mkDailyRow, h1, h2]
    rw [hnew, List.append_nil]
  · simp only [recomputeMetricsRange, List.filter_append]
    rw [filter_idem]
    have hnew : ((skuPairsInRange orders lines dFrom dTo).map (mkSkuRow orders lines)).filter
        (fun r => ¬ (dFrom ≤ r.metric_date ∧ r.metric_date ≤ dTo)) = [] := by
      rw [List.filter_eq_nil_iff]
      intro r hr
      obtain ⟨p, hp, rfl⟩ := List.mem_map.mp hr
      obtain ⟨⟨h1, h2⟩, _⟩ := hsku_mem p hp
      simp [mkSkuRow, h1, h2]
    rw [hnew, List.append_nil]
  · intro d h1 h2 hne
    simp only [recomputeMetricsRange, List.filter_append]
    have hkept : (db.daily.filter
        (fun r => ¬ (dFrom ≤ r.metric_date ∧ r.metric_date ≤ dTo))).filter
        (fun r => r.metric_date = d) = [] := by
      rw [List.filter_eq_nil_iff]
      intro r hr
      have hr' := (List.mem_filter.mp hr).2
      simp only [decide_eq_true_eq] at hr'
      intro heq
      simp only [decide_eq_true_eq] at heq
      exact hr' (by rw [heq]; exact ⟨h1, h2⟩)
    have hnew : ((datesInRange orders lines dFrom dTo).map (mkDailyRow orders lines)).filter
        (fun r => r.metric_date = d) = [mkDailyRow orders lines d] :=
      filter_map_of_nodup _ _ d (by intro x; simp [mkDailyRow]) _
        (List.nodup_dedup _) (mem_datesInRange h1 h2 hne)
    rw [hkept, hnew, List.nil_append]
  · intro d h1 h2 hnil
    simp only [recomputeMetricsRange, List.filter_append]
    have hkept : (db.daily.filter
        (fun r => ¬ (dFrom ≤ r.metric_date ∧ r.metric_date ≤ dTo))).filter
        (fun r => r.metric_date = d) = [] := by
      rw [List.filter_eq_nil_iff]
      intro r hr
      have hr' := (List.mem_filter.mp hr).2
      simp only [decide_eq_true_eq] at hr'
      intro heq
      simp only [decide_eq_true_eq] at heq
      exact hr' (by rw [heq]; exact ⟨h1, h2⟩)
    have hnew : ((datesInRange orders lines dFrom dTo).map (mkDailyRow orders lines)).filter
        (fun r => r.metric_date = d) = [] := by
      rw [List.filter_eq_nil_iff]
      intro r hr
      obtain ⟨x, hx, rfl⟩ := List.mem_map.mp hr
      intro heq
      simp only [decide_eq_true_eq, mkDailyRow] at heq
      subst heq
      exact (hdaily_mem x hx).2 hnil
    rw [hkept, hnew]
    rfl
  · intro d k h1 h2 hne
    simp only [recomputeMetricsRange, List.filter_append]
    have hkept : (db.skuDaily.filter
        (fun r => ¬ (dFrom ≤ r.metric_date ∧ r.metric_date ≤ dTo))).filter
        (fun r => r.metric_date = d ∧ r.sku = k) = [] := by
      rw [List.filter_eq_nil_iff]
      intro r hr
      have hr' := (List.mem_filter.mp hr).2
      simp only [decide_eq_true_eq] at hr'
      intro heq
      simp only [decide_eq_true_eq] at heq
      exact hr' (by rw [heq.1]; exact ⟨h1, h2⟩)
    have hnew : ((skuPairsInRange orders lines dFrom dTo).map (mkSkuRow orders lines)).filter
        (fun r => r.metric_date = d ∧ r.sku = k) = [mkSkuRow orders lines (d, k)] :=
      filter_map_of_nodup _ _ (d, k)
        (by intro x; simp [mkSkuRow, Prod.ext_iff]) _
        (List.nodup_dedup _) (mem_skuPairsInRange h1 h2 hne)
    rw [hkept, hnew, List.nil_append]
  · intro d k h1 h2 hnil
    simp only [recomputeMetricsRange, List.filter_append]
    have hkept : (db.skuDaily.filter
        (fun r => ¬ (dFrom ≤ r.metric_date ∧ r.metric_date ≤ dTo))).filter
        (fun r => r.metric_date = d ∧ r.sku = k) = [] := by
      rw [List.filter_eq_nil_iff]
      intro r hr
      have hr' := (List.mem_filter.mp hr).2
      simp only [decide_eq_true_eq] at hr'
      intro heq
      simp only [decide_eq_true_eq] at heq
      exact hr' (by rw [heq.1]; exact ⟨h1, h2⟩)
    have hnew : ((skuPairsInRange orders lines dFrom dTo).map (mkSkuRow orders lines)).filter
        (fun r => r.metric_date = d ∧ r.sku = k) = [] := by
      rw [List.filter_eq_nil_iff]
      intro r hr
      obtain ⟨x, hx, rfl⟩ := List.mem_map.mp hr
      intro heq
      simp only [decide_eq_true_eq, mkSkuRow] at heq
      have hx' : x = (d, k) := Prod.ext_iff.mpr ⟨heq.1, heq.2⟩
      subst hx'
      exact (hsku_mem (d, k) hx).2 hnil
    rw [hkept, hnew]
    rfl

/-- Witness for `recompute_metrics_range_spec`: one order on day 10 with
one line, recomputed over days 0–20 against a database holding a stale
out-of-range row. -/
theorem recompute_metrics_range_spec_witness :
    ((recomputeMetricsRange [⟨1, some 10⟩] [⟨1, "S", 2, 100, 40, 60, none, none, 18⟩]
        0 20 ⟨[⟨30, 1, 5, 1, 1, 1, 1, 1⟩], []⟩).daily.filter
        (fun r => ¬ ((0 : Int) ≤ r.metric_date ∧ r.metric_date ≤ 20)) =
      (MetricsDB.daily ⟨[⟨30, 1, 5, 1, 1, 1, 1, 1⟩], []⟩).filter
        (fun r => ¬ ((0 : Int) ≤ r.metric_date ∧ r.metric_date ≤ 20))) ∧
    ((recomputeMetricsRange [⟨1, some 10⟩] [⟨1, "S", 2, 100, 40, 60, none, none, 18⟩]
        0 20 ⟨[⟨30, 1, 5, 1, 1, 1, 1, 1⟩], []⟩).skuDaily.filter
        (fun r => ¬ ((0 : Int) ≤ r.metric_date ∧ r.metric_date ≤ 20)) =
      (MetricsDB.skuDaily ⟨[⟨30, 1, 5, 1, 1, 1, 1, 1⟩], []⟩).filter
        (fun r => ¬ ((0 : Int) ≤ r.metric_date ∧ r.metric_date ≤ 20))) ∧
    (∀ d : Int, (0 : Int) ≤ d → d ≤ 20 →
      linesOn [⟨1, some 10⟩] [⟨1, "S", 2, 100, 40, 60, none, none, 18⟩] d ≠ [] →
      (recomputeMetricsRange [⟨1, some 10⟩] [⟨1, "S", 2, 100, 40, 60, none, none, 18⟩]
        0 20 ⟨[⟨30, 1, 5, 1, 1, 1, 1, 1⟩], []⟩).daily.filter
        (fun r => r.metric_date = d) =
      [mkDailyRow [⟨1, some 10⟩] [⟨1, "S", 2, 100, 40, 60, none, none, 18⟩] d]) ∧
    (∀ d : Int, (0 : Int) ≤ d → d ≤ 20 →
      linesOn [⟨1, some 10⟩] [⟨1, "S", 2, 100, 40, 60, none, none, 18⟩] d = [] →
      (recomputeMetricsRange [⟨1, some 10⟩] [⟨1, "S", 2, 100, 40, 60, none, none, 18⟩]
        0 20 ⟨[⟨30, 1, 5, 1, 1, 1, 1, 1⟩], []⟩).daily.filter
        (fun r => r.metric_date = d) = []) ∧
    (∀ (d : Int) (k : String), (0 : Int) ≤ d → d ≤ 20 →
      linesOnSku [⟨1, some 10⟩] [⟨1, "S", 2, 100, 40, 60, none, none, 18⟩] d k ≠ [] →
      (recomputeMetricsRange [⟨1, some 10⟩] [⟨1, "S", 2, 100, 40, 60, none, none, 18⟩]
        0 20 ⟨[⟨30, 1, 5, 1, 1, 1, 1, 1⟩], []⟩).skuDaily.filter
        (fun r => r.metric_date = d ∧ r.sku = k) =
      [mkSkuRow [⟨1, some 10⟩] [⟨1, "S", 2, 100, 40, 60, none, none, 18⟩] (d, k)]) ∧
    (∀ (d : Int) (k : String), (0 : Int) ≤ d → d ≤ 20 →
      linesOnSku [⟨1, some 10⟩] [⟨1, "S", 2, 100, 40, 60, none, none, 18⟩] d k = [] →
      (recomputeMetricsRange [⟨1, some 10⟩] [⟨1, "S", 2, 100, 40, 60, none, none, 18⟩]
        0 20 ⟨[⟨30, 1, 5, 1, 1, 1, 1, 1⟩], []⟩).skuDaily.filter
        (fun r => r.metric_date = d ∧ r.sku = k) = []) :=
  recompute_metrics_range_spec [⟨1, some 10⟩] [⟨1, "S", 2, 100, 40, 60, none, none, 18⟩]
    0 20 ⟨[⟨30, 1, 5, 1, 1, 1, 1, 1⟩], []⟩

end Minimuse
